import Mathlib

/-!
Shallow embedding of the WebSocket endpoint implemented in
src/src/WebSocket.cpp (class WebSocket::WebSocket and its Impl), RFC 6455
protocol version 13.

Modelling conventions:

* Wire bytes and payloads are represented as List Nat; every store into a
  C++ uint8_t (or char inside a std::string built from bytes) is mirrored
  with an explicit % 256.  C++ bit operations on bytes are mirrored
  arithmetically: x & 0x7F is x % 128, x & 0x0F is x % 16,
  (x >> 4) & 0x07 is x >>> 4 % 8, and the FIN/MASK bit test
  (x & 0x80) != 0 is x / 128 % 2 = 1.
* The transport (Http::Connection), the five user delegates and the
  diagnostics sender are observed through an event trace (Event): each
  SendData / Break call and each delegate invocation appends one event.
  A delegate that is not set (nullptr in the C++) produces no event; the
  Env record carries one Boolean per delegate telling whether it is set.
* The external collaborators that are not part of this repository are
  parameters: the UTF-8 validator (Utf8::Utf8::IsValidEncoding) is the
  function field utf8Valid of Env, SHA-1 / Base64 are the fields of
  CryptoEnv, and the HTTP header abstraction (MessageHeaders) is the
  record HttpHeaders of query functions; its getTokens is assumed (as in
  the Http library and the tests) to deliver lower-cased trimmed tokens.
* The 4 random masking-key bytes drawn from SystemUtils::CryptoRandom for
  each frame sent in Client role are an explicit argument (maskingKey /
  mkey); receive entry points take a list of such keys, one per frame that
  could trigger a reply.
-/

/-- Role of the endpoint (WebSocket::WebSocket::Role). -/
inductive Role where
  | Client
  | Server
deriving DecidableEq, Repr

/-- Kind of fragmented message in flight (anonymous-namespace enum
FragmentedMessageType in WebSocket.cpp). -/
inductive FragmentedMessageType where
  | None
  | Text
  | Binary
deriving DecidableEq, Repr

/-- Observable effects of the session: transport writes, transport
teardown, delegate invocations, diagnostics. -/
inductive Event where
  | sendData (frame : List Nat)
  | breakTransport (clean : Bool)
  | pingEvent (data : List Nat)
  | pongEvent (data : List Nat)
  | textEvent (data : List Nat)
  | binaryEvent (data : List Nat)
  | closeEvent (statusCode : Nat) (reason : List Nat)
  | diagnosticEvent (level : Nat)
deriving DecidableEq, Repr

/-- Mutable state of WebSocket::Impl.  The shared_ptr connection is
abstracted to an identifier; none means no transport is bound. -/
structure WSState where
  connection : Option Nat
  role : Role
  closeWebSocketSent : Bool
  closeWebSocketReceived : Bool
  sending : FragmentedMessageType
  receiving : FragmentedMessageType
  reassemblyBuffer : List Nat
  reassemblyFragmentedBuffer : List Nat
  key : String
deriving DecidableEq, Repr

/-- External dependencies of the frame layer: which delegates are set, and
the UTF-8 validity oracle (Utf8::Utf8::IsValidEncoding). -/
structure Env where
  hasPing : Bool
  hasPong : Bool
  hasText : Bool
  hasBinary : Bool
  hasClose : Bool
  utf8Valid : List Nat → Bool

/-- External cryptographic primitives used by the handshake (Sha1::Sha1Bytes
and Base64::EncodeToBase64 / DecodeFromBase64). -/
structure CryptoEnv where
  sha1 : String → String
  base64Encode : String → String
  base64Decode : String → String

/-- Query interface of the external HTTP MessageHeaders object.  Name
lookup is case-insensitive inside the object; getTokens delivers
lower-cased, trimmed, comma-split tokens. -/
structure HttpHeaders where
  getValue : String → String
  getTokens : String → List String
  getMultiValues : String → List String

/-- HTTP request as consumed by the handshake (headers only). -/
structure HttpRequest where
  headers : HttpHeaders

/-- HTTP response as consumed by CompleteOpenAsClient. -/
structure HttpResponse where
  statusCode : Nat
  status : String
  headers : HttpHeaders

/-- ASCII bytes of a string literal (reason phrases in the C++ are
std::string constants appended into byte frames). -/
def strBytes (s : String) : List Nat :=
  s.toList.map Char.toNat

/-- Websocket key salt (WEBSOCKET_KEY_SALT in WebSocket.cpp). -/
def WEBSOCKET_KEY_SALT : String := "258EAFA5-E914-47DA-95CA-C5AB0DC85B11"

/-- Accept-key computation (anonymous-namespace ComputeValidationKey):
base64(SHA1(key plus salt)). -/
def ComputeValidationKey (cenv : CryptoEnv) (key : String) : String :=
  cenv.base64Encode (cenv.sha1 (key ++ WEBSOCKET_KEY_SALT))

/-- Case normalization used for the Upgrade header comparison
(StringUtils::NormalizeCaseInsensitiveString): ASCII lower-casing. -/
def normalizeCaseInsensitiveString (s : String) : String :=
  String.mk (s.toList.map Char.toLower)

/-- Wire bytes produced by WebSocket::Impl::SendFrame.  First octet is
FIN bit plus opcode; second octet carries the MASK bit (set exactly in
Client role) and the 7-bit length, possibly followed by a 16- or 64-bit
big-endian extended length; in Client role the 4 masking-key bytes follow
and the payload is XOR-masked, in Server role the payload is verbatim. -/
def sendFrameBytes (role : Role) (fin : Bool) (opcode : Nat) (payload : List Nat)
    (maskingKey : List Nat) : List Nat :=
  let mask : Nat := if role = Role.Client then 128 else 0
  let lenPart : List Nat :=
    if payload.length < 126 then
      [(payload.length % 256 + mask) % 256]
    else if payload.length < 65536 then
      [126 + mask, (payload.length >>> 8) % 256, payload.length % 256]
    else
      [127 + mask,
       (payload.length >>> 56) % 256, (payload.length >>> 48) % 256,
       (payload.length >>> 40) % 256, (payload.length >>> 32) % 256,
       (payload.length >>> 24) % 256, (payload.length >>> 16) % 256,
       (payload.length >>> 8) % 256, payload.length % 256]
  let body : List Nat :=
    if mask = 0 then payload
    else ((List.range 4).map fun i => maskingKey.getD i 0 % 256) ++
      ((List.range payload.length).map fun i =>
        (payload.getD i 0 ^^^ (maskingKey.getD (i % 4) 0 % 256)) % 256)
  (((if fin then 128 else 0) + opcode) % 256) :: (lenPart ++ body)

/-- FIN flag of a reassembled frame ((reassemblyBuffer[0] & FIN) != 0). -/
def frameFin (b : List Nat) : Bool :=
  b.getD 0 0 / 128 % 2 == 1

/-- Reserved bits of a frame ((reassemblyBuffer[0] >> 4) & 0x07). -/
def frameRsv (b : List Nat) : Nat :=
  b.getD 0 0 >>> 4 % 8

/-- Opcode of a frame (reassemblyBuffer[0] & 0x0F). -/
def frameOpcode (b : List Nat) : Nat :=
  b.getD 0 0 % 16

/-- Extra header bytes in Server role: the 4 masking-key bytes the peer
(a Client) must have inserted (headerLength += 4 in ReceiveData). -/
def serverExtra (role : Role) : Nat :=
  if role = Role.Server then 4 else 0

/-- Extended 16-bit big-endian payload length (bytes 2 and 3). -/
def extendedLength16 (b : List Nat) : Nat :=
  (b.getD 2 0 <<< 8) + b.getD 3 0

/-- Extended 64-bit big-endian payload length (bytes 2 through 9). -/
def extendedLength64 (b : List Nat) : Nat :=
  (b.getD 2 0 <<< 56) + (b.getD 3 0 <<< 48) + (b.getD 4 0 <<< 40) +
  (b.getD 5 0 <<< 32) + (b.getD 6 0 <<< 24) + (b.getD 7 0 <<< 16) +
  (b.getD 8 0 <<< 8) + b.getD 9 0

/-- Frame-boundary computation of WebSocket::Impl::ReceiveData: given the
reassembly buffer, either none (incomplete: wait for more bytes) or the
header length and payload length of the first complete frame.  The 7-bit
length field is byte 1 masked with 0x7F; values 126 and 127 select the
extended lengths, and the header length gains 4 masking-key bytes in
Server role. -/
def headerInfo (role : Role) (b : List Nat) : Option (Nat × Nat) :=
  if b.length < 2 then none
  else if b.getD 1 0 % 128 = 126 then
    if b.length < 4 then none
    else if b.length < (4 + serverExtra role) + extendedLength16 b then none
    else some (4 + serverExtra role, extendedLength16 b)
  else if b.getD 1 0 % 128 = 127 then
    if b.length < 10 then none
    else if b.length < (10 + serverExtra role) + extendedLength64 b then none
    else some (10 + serverExtra role, extendedLength64 b)
  else if b.length < (2 + serverExtra role) + b.getD 1 0 % 128 then none
  else some (2 + serverExtra role, b.getD 1 0 % 128)

/-- Payload extraction of WebSocket::Impl::ReceiveFrame: in Server role the
payload is unmasked in place with the 4 key bytes that sit right before it;
in Client role it is copied verbatim. -/
def extractData (role : Role) (b : List Nat) (headerLength payloadLength : Nat) :
    List Nat :=
  if role = Role.Server then
    (List.range payloadLength).map fun i =>
      (b.getD (headerLength + i) 0 ^^^ b.getD (headerLength - 4 + i % 4) 0) % 256
  else
    (b.drop headerLength).take payloadLength

/-- Decoded frame as handed from the byte layer to the control logic. -/
structure Frame where
  fin : Bool
  rsv : Nat
  opcode : Nat
  payload : List Nat
deriving DecidableEq, Repr

/-- One decoding step: the first complete frame of the buffer together with
the remaining bytes, or none when the buffer is incomplete. -/
def decodeStep (role : Role) (b : List Nat) : Option (Frame × List Nat) :=
  match headerInfo role b with
  | none => none
  | some hp =>
      some (⟨frameFin b, frameRsv b, frameOpcode b, extractData role b hp.1 hp.2⟩,
        b.drop (hp.1 + hp.2))

theorem headerInfo_bounds {role : Role} {b : List Nat} {hp : Nat × Nat}
    (h : headerInfo role b = some hp) : 2 ≤ hp.1 ∧ hp.1 + hp.2 ≤ b.length := by
  unfold headerInfo at h
  split_ifs at h <;> simp only [Option.some.injEq] at h <;> subst h <;>
    constructor <;> simp_all <;> omega

theorem decodeStep_rest_length {role : Role} {b : List Nat} {fr : Frame × List Nat}
    (h : decodeStep role b = some fr) :
    fr.2.length < b.length := by
  unfold decodeStep at h
  cases hh : headerInfo role b with
  | none => rw [hh] at h; exact absurd h (by simp)
  | some hp =>
      rw [hh] at h
      simp only [Option.some.injEq] at h
      obtain ⟨hb1, hb2⟩ := headerInfo_bounds hh
      rw [← h]
      simp only [List.length_drop]
      omega

/-- Greedy frame extraction: the loop of WebSocket::Impl::ReceiveData,
projected onto the sequence of decoded frames and the residual buffer. -/
def extractFrames (role : Role) (b : List Nat) : List Frame × List Nat :=
  match hd : decodeStep role b with
  | none => ([], b)
  | some fr =>
      let r := extractFrames role fr.2
      (fr.1 :: r.1, r.2)
termination_by b.length
decreasing_by
  exact decodeStep_rest_length hd

/-- WebSocket::Impl::OnCloseReceipt: remember whether a Close frame had
been sent, mark the close as received, invoke the close delegate (if set)
with the status code and reason, and if a Close frame had been sent tear
down the transport with Break(false). -/
def Impl.OnCloseReceipt (env : Env) (s : WSState) (statusCode : Nat)
    (reason : List Nat) : WSState × List Event :=
  let closeWasSent := s.closeWebSocketSent
  ({ s with closeWebSocketReceived := true },
    (if env.hasClose then [Event.closeEvent statusCode reason] else []) ++
    (if closeWasSent then [Event.breakTransport false] else []))

/-- WebSocket::Impl::Close: no-op once a Close frame has been sent;
otherwise set closeWebSocketSent; for status 1006 invoke OnCloseReceipt
directly with no wire output; otherwise build the payload (big-endian
status code then reason, empty for 1005), send the Close frame, then on
fail invoke OnCloseReceipt, else if a Close was already received call
Break(true). -/
def Impl.Close (env : Env) (mkey : List Nat) (s : WSState) (statusCode : Nat)
    (reason : List Nat) (fail : Bool) : WSState × List Event :=
  if s.closeWebSocketSent then (s, [])
  else
    let s1 := { s with closeWebSocketSent := true }
    if statusCode = 1006 then Impl.OnCloseReceipt env s1 statusCode reason
    else
      let data : List Nat :=
        if statusCode ≠ 1005 then
          (statusCode >>> 8) % 256 :: statusCode % 256 :: reason
        else []
      let sendEvt := Event.sendData (sendFrameBytes s1.role true 8 data mkey)
      if fail then
        let r := Impl.OnCloseReceipt env s1 statusCode reason
        (r.1, sendEvt :: r.2)
      else if s1.closeWebSocketReceived then (s1, [sendEvt, Event.breakTransport true])
      else (s1, [sendEvt])

/-- WebSocket::Impl::OnTextMessage: validate UTF-8; deliver to the text
delegate on success, fail the connection with 1007 otherwise. -/
def Impl.OnTextMessage (env : Env) (mkey : List Nat) (s : WSState)
    (message : List Nat) : WSState × List Event :=
  if env.utf8Valid message then
    (s, if env.hasText then [Event.textEvent message] else [])
  else
    Impl.Close env mkey s 1007 (strBytes "text message with invalid UTF-8 encoding") true

/-- WebSocket::Impl::ReceiveFrame: dispatch one complete frame sitting at
the start of the reassembly buffer.  Reserved bits fail the connection with
1002; then the opcode selects ping echo, pong delivery, close handling,
continuation/text/binary reassembly, or the unknown-opcode failure. -/
def Impl.ReceiveFrame (env : Env) (mkey : List Nat) (s : WSState)
    (headerLength payloadLength : Nat) : WSState × List Event :=
  let b := s.reassemblyBuffer
  let fin := frameFin b
  if frameRsv b ≠ 0 then
    Impl.Close env mkey s 1002 (strBytes "reserved bits set") true
  else
    let opcode := frameOpcode b
    let data := extractData s.role b headerLength payloadLength
    if opcode = 9 then
      (s, (if env.hasPing then [Event.pingEvent data] else []) ++
        [Event.sendData (sendFrameBytes s.role true 10 data mkey)])
    else if opcode = 10 then
      (s, if env.hasPong then [Event.pongEvent data] else [])
    else if opcode = 8 then
      if 2 ≤ data.length then
        let statusCode := (data.getD 0 0 % 256) * 256 + data.getD 1 0 % 256
        let reason := data.drop 2
        if env.utf8Valid reason then Impl.OnCloseReceipt env s statusCode reason
        else
          Impl.Close env mkey s 1007 (strBytes "invalid UTF-8 encoding in close reason") true
      else Impl.OnCloseReceipt env s 1005 []
    else if opcode = 0 then
      let s1 := { s with reassemblyFragmentedBuffer := s.reassemblyFragmentedBuffer ++ data }
      let r :=
        match s1.receiving with
        | FragmentedMessageType.Text =>
            if fin then Impl.OnTextMessage env mkey s1 s1.reassemblyFragmentedBuffer
            else (s1, [])
        | FragmentedMessageType.Binary =>
            if fin then
              (s1, if env.hasBinary then [Event.binaryEvent s1.reassemblyFragmentedBuffer] else [])
            else (s1, [])
        | FragmentedMessageType.None =>
            Impl.Close env mkey { s1 with reassemblyFragmentedBuffer := [] } 1002
              (strBytes "unexpected continuation frame") true
      if fin then
        ({ r.1 with
            receiving := FragmentedMessageType.None
            reassemblyFragmentedBuffer := [] }, r.2)
      else r
    else if opcode = 1 then
      if s.receiving = FragmentedMessageType.None then
        if fin then Impl.OnTextMessage env mkey s data
        else ({ s with
            receiving := FragmentedMessageType.Text
            reassemblyFragmentedBuffer := data }, [])
      else Impl.Close env mkey s 1002 (strBytes "last message incomplete") true
    else if opcode = 2 then
      if s.receiving = FragmentedMessageType.None then
        if fin then
          (s, if env.hasBinary then [Event.binaryEvent data] else [])
        else ({ s with
            receiving := FragmentedMessageType.Binary
            reassemblyFragmentedBuffer := data }, [])
      else Impl.Close env mkey s 1002 (strBytes "last message incomplete") true
    else
      Impl.Close env mkey s 1002 (strBytes "unknown opcode") true

/-- Loop body of WebSocket::Impl::ReceiveData: while the buffer holds a
complete frame, hand it to ReceiveFrame and erase its bytes.  One masking
key is consumed per dispatched frame (for a possible reply). -/
def receiveDataGo (env : Env) (mkeys : List (List Nat)) (s : WSState)
    (buf : List Nat) : WSState × List Event :=
  match hh : headerInfo s.role buf with
  | none => ({ s with reassemblyBuffer := buf }, [])
  | some hp =>
      let r1 := Impl.ReceiveFrame env (mkeys.headD []) { s with reassemblyBuffer := buf }
        hp.1 hp.2
      let r2 := receiveDataGo env (mkeys.drop 1) r1.1 (buf.drop (hp.1 + hp.2))
      (r2.1, r1.2 ++ r2.2)
termination_by buf.length
decreasing_by
  obtain ⟨h1, h2⟩ := headerInfo_bounds hh
  simp only [List.length_drop]
  omega

/-- WebSocket::Impl::ReceiveData: append the received chunk to the
reassembly buffer, then decode and dispatch every complete frame. -/
def Impl.ReceiveData (env : Env) (mkeys : List (List Nat)) (s : WSState)
    (data : List Nat) : WSState × List Event :=
  receiveDataGo env mkeys s (s.reassemblyBuffer ++ data)

/-- WebSocket::Impl::ConnectionBroken: close with 1006 (fail) and publish a
level-1 diagnostic naming the peer. -/
def Impl.ConnectionBroken (env : Env) (mkey : List Nat) (s : WSState) :
    WSState × List Event :=
  let r := Impl.Close env mkey s 1006 (strBytes "connection broken by peer") true
  (r.1, r.2 ++ [Event.diagnosticEvent 1])

/-- WebSocket::Open: bind the transport and fix the role (the data and
broken callbacks of the connection are registered here). -/
def WebSocket.Open (s : WSState) (connection : Nat) (role : Role) : WSState :=
  { s with connection := some connection, role := role }

/-- WebSocket::Ping: silently ignored after a Close was sent or when the
payload exceeds 125 bytes; otherwise send a Ping frame with FIN set. -/
def WebSocket.Ping (mkey : List Nat) (s : WSState) (data : List Nat) :
    WSState × List Event :=
  if s.closeWebSocketSent then (s, [])
  else if 125 < data.length then (s, [])
  else (s, [Event.sendData (sendFrameBytes s.role true 9 data mkey)])

/-- WebSocket::Pong: same guards as Ping, opcode 0xA. -/
def WebSocket.Pong (mkey : List Nat) (s : WSState) (data : List Nat) :
    WSState × List Event :=
  if s.closeWebSocketSent then (s, [])
  else if 125 < data.length then (s, [])
  else (s, [Event.sendData (sendFrameBytes s.role true 10 data mkey)])

/-- WebSocket::SendText: ignored after Close was sent or while a binary
message is in flight; continuation opcode while a text message is in
flight; FIN mirrors lastFragment, which also updates the sending state. -/
def WebSocket.SendText (mkey : List Nat) (s : WSState) (text : List Nat)
    (lastFragment : Bool) : WSState × List Event :=
  if s.closeWebSocketSent then (s, [])
  else if s.sending = FragmentedMessageType.Binary then (s, [])
  else
    let opcode := if s.sending = FragmentedMessageType.Text then 0 else 1
    ({ s with sending := if lastFragment then FragmentedMessageType.None
        else FragmentedMessageType.Text },
      [Event.sendData (sendFrameBytes s.role lastFragment opcode text mkey)])

/-- WebSocket::SendBinary: symmetric to SendText. -/
def WebSocket.SendBinary (mkey : List Nat) (s : WSState) (binary : List Nat)
    (lastFragment : Bool) : WSState × List Event :=
  if s.closeWebSocketSent then (s, [])
  else if s.sending = FragmentedMessageType.Text then (s, [])
  else
    let opcode := if s.sending = FragmentedMessageType.Binary then 0 else 2
    ({ s with sending := if lastFragment then FragmentedMessageType.None
        else FragmentedMessageType.Binary },
      [Event.sendData (sendFrameBytes s.role lastFragment opcode binary mkey)])

/-- WebSocket::Close (public): delegate to Impl::Close with fail = false. -/
def WebSocket.Close (env : Env) (mkey : List Nat) (s : WSState)
    (statusCode : Nat) (reason : List Nat) : WSState × List Event :=
  Impl.Close env mkey s statusCode reason false

/-- Response fields populated by a successful OpenAsServer. -/
structure ServerHandshakeResponse where
  statusCode : Nat
  status : String
  connectionTokens : List String
  upgrade : String
  secWebSocketAccept : String
deriving DecidableEq, Repr

/-- Result of WebSocket::OpenAsServer. -/
structure OpenAsServerResult where
  ok : Bool
  state : WSState
  response : Option ServerHandshakeResponse
  events : List Event

/-- WebSocket::OpenAsServer: check version 13, an upgrade Connection token,
the websocket Upgrade value, then store the Sec-WebSocket-Key of the
request in the session and check that it decodes to 16 bytes; on success
populate the 101 response, bind the transport as Server and feed any
trailer bytes to the receive pipeline.  Note the key is stored before the
key-length check. -/
def WebSocket.OpenAsServer (env : Env) (cenv : CryptoEnv) (mkeys : List (List Nat))
    (s : WSState) (connection : Nat) (request : HttpRequest) (trailer : List Nat) :
    OpenAsServerResult :=
  if request.headers.getValue "Sec-WebSocket-Version" ≠ "13" then ⟨false, s, none, []⟩
  else if ¬ ((request.headers.getTokens "Connection").contains "upgrade") then
    ⟨false, s, none, []⟩
  else if normalizeCaseInsensitiveString (request.headers.getValue "Upgrade") ≠ "websocket" then
    ⟨false, s, none, []⟩
  else
    let s1 := { s with key := request.headers.getValue "sec-WebSocket-key" }
    if (cenv.base64Decode s1.key).length ≠ 16 then ⟨false, s1, none, []⟩
    else
      let connectionTokens := request.headers.getMultiValues "connection" ++ ["upgrade"]
      let response : ServerHandshakeResponse :=
        ⟨101, "Switching Protocols", connectionTokens, "websocket",
          ComputeValidationKey cenv s1.key⟩
      let s2 := WebSocket.Open s1 connection Role.Server
      if trailer ≠ [] then
        let r := Impl.ReceiveData env mkeys s2 trailer
        ⟨true, r.1, some response, r.2⟩
      else ⟨true, s2, some response, []⟩

/-- WebSocket::CompleteOpenAsClient: accept the upgrade response only if
the status is 101, the Connection tokens contain upgrade, the Upgrade value
is websocket (case-insensitively), the accept header matches the value
computed from the stored key, and the Sec-WebSocket-Extension and
Sec-WebSocket-Protocol token lists are empty; then bind as Client. -/
def WebSocket.CompleteOpenAsClient (cenv : CryptoEnv) (s : WSState)
    (connection : Nat) (response : HttpResponse) : Bool × WSState :=
  if response.statusCode ≠ 101 then (false, s)
  else if ¬ ((response.headers.getTokens "Connection").contains "upgrade") then (false, s)
  else if normalizeCaseInsensitiveString (response.headers.getValue "Upgrade") ≠ "websocket" then
    (false, s)
  else if response.headers.getValue "Sec-WebSocket-Accept" ≠ ComputeValidationKey cenv s.key then
    (false, s)
  else if response.headers.getTokens "Sec-WebSocket-Extension" ≠ [] then (false, s)
  else if response.headers.getTokens "Sec-WebSocket-Protocol" ≠ [] then (false, s)
  else (true, WebSocket.Open s connection Role.Client)

/-- Success condition of complete_open_as_client as the specification
states it, for comparison with the implementation: all six checks, with
the extensions check reading the Sec-WebSocket-Extensions header. -/
def completeOpenAsClientSpec (cenv : CryptoEnv) (key : String)
    (response : HttpResponse) : Prop :=
  response.statusCode = 101 ∧
  (response.headers.getTokens "Connection").contains "upgrade" = true ∧
  normalizeCaseInsensitiveString (response.headers.getValue "Upgrade") = "websocket" ∧
  response.headers.getValue "Sec-WebSocket-Accept" = ComputeValidationKey cenv key ∧
  response.headers.getTokens "Sec-WebSocket-Extensions" = [] ∧
  response.headers.getTokens "Sec-WebSocket-Protocol" = []

/-! Concrete fixtures used by witnesses and counterexamples. -/

/-- Environment with every delegate set and a UTF-8 oracle that accepts
everything. -/
def envAll : Env := ⟨true, true, true, true, true, fun _ => true⟩

/-- Environment with every delegate set and a UTF-8 oracle that accepts
only the empty byte sequence. -/
def envEmptyValid : Env := ⟨true, true, true, true, true, fun l => l.isEmpty⟩

/-- Crypto environment whose primitives are identities (the handshake
logic only pipes their outputs around). -/
def cenvId : CryptoEnv := ⟨id, id, id⟩

/-- Session as created, before any open operation. -/
def idleState : WSState :=
  ⟨none, Role.Server, false, false, FragmentedMessageType.None,
    FragmentedMessageType.None, [], [], ""⟩

/-- Session bound to transport 1 in Server role. -/
def serverState : WSState :=
  ⟨some 1, Role.Server, false, false, FragmentedMessageType.None,
    FragmentedMessageType.None, [], [], ""⟩

/-- Session bound to transport 1 in Client role. -/
def clientState : WSState :=
  ⟨some 1, Role.Client, false, false, FragmentedMessageType.None,
    FragmentedMessageType.None, [], [], ""⟩

/-- Claim C1, counterexample: with closeWebSocketSent already true, a
masked Ping frame delivered to the receive path still produces a Pong
frame on the transport (the Ping echo in ReceiveFrame is not guarded by
closeWebSocketSent), so the claim that no frame of any kind is ever
emitted after close_sent is false. -/
theorem ping_after_close_sent_emits_pong :
    ({ serverState with closeWebSocketSent := true } : WSState).closeWebSocketSent = true ∧
    (Impl.ReceiveData envAll [[]] { serverState with closeWebSocketSent := true }
        [137, 128, 0, 0, 0, 0]).2 =
      [Event.pingEvent [], Event.sendData [138, 0]] := by
  constructor
  · rfl
  · simp [Impl.ReceiveData, receiveDataGo, headerInfo, serverExtra, extendedLength16,
      extendedLength64, Impl.ReceiveFrame, frameRsv, frameOpcode, frameFin, extractData,
      sendFrameBytes, envAll, serverState]

/-- Claim C1 (amended): once closeWebSocketSent is true, none of the five
public send operations (Ping, Pong, SendText, SendBinary, Close) emits
anything at all — no frame reaches the transport and no delegate fires.
(The receive path is not so guarded: see the counterexample for the Pong
echo to a received Ping.) -/
theorem close_sent_blocks_public_sends (env : Env) (mkey : List Nat) (s : WSState)
    (data text binary reason : List Nat) (lastFragment : Bool) (statusCode : Nat)
    (h : s.closeWebSocketSent = true) :
    (WebSocket.Ping mkey s data).2 = [] ∧
    (WebSocket.Pong mkey s data).2 = [] ∧
    (WebSocket.SendText mkey s text lastFragment).2 = [] ∧
    (WebSocket.SendBinary mkey s binary lastFragment).2 = [] ∧
    (WebSocket.Close env mkey s statusCode reason).2 = [] := by
  simp [WebSocket.Ping, WebSocket.Pong, WebSocket.SendText, WebSocket.SendBinary,
    WebSocket.Close, Impl.Close, h]

/-- Witness for close_sent_blocks_public_sends at a concrete closed
session. -/
theorem close_sent_blocks_public_sends_witness :
    (WebSocket.Ping [] { serverState with closeWebSocketSent := true } [72]).2 = [] ∧
    (WebSocket.Close envAll [] { serverState with closeWebSocketSent := true }
      1000 []).2 = [] := by
  have h := close_sent_blocks_public_sends envAll [] 
    { serverState with closeWebSocketSent := true } [72] [] [] [] true 1000 rfl
  exact ⟨h.1, h.2.2.2.2⟩

/-- Claim C5: Impl::Close with status 1006 writes nothing to the
transport: when no Close was sent yet it invokes the close-receipt handler
directly with (1006, reason) and then breaks the transport, and a call
with status 1006 never produces a sendData event in any state, so 1006
never appears on the wire. -/
theorem close_1006_short_circuits (env : Env) (mkey : List Nat) (s : WSState)
    (reason : List Nat) (fail : Bool)
    (hsent : s.closeWebSocketSent = false) (hdel : env.hasClose = true) :
    (Impl.Close env mkey s 1006 reason fail).2 =
      [Event.closeEvent 1006 reason, Event.breakTransport false] ∧
    (∀ (s' : WSState) (mkey' reason' : List Nat) (fail' : Bool) (f : List Nat),
      Event.sendData f ∉ (Impl.Close env mkey' s' 1006 reason' fail').2) := by
  constructor
  · simp [Impl.Close, Impl.OnCloseReceipt, hsent, hdel]
  · intro s' mkey' reason' fail' f
    by_cases hs : s'.closeWebSocketSent
    · simp [Impl.Close, hs]
    · simp [Impl.Close, hs, Impl.OnCloseReceipt]

/-- Witness for close_1006_short_circuits at a concrete open session. -/
theorem close_1006_short_circuits_witness :
    (Impl.Close envAll [] serverState 1006 [66] true).2 =
      [Event.closeEvent 1006 [66], Event.breakTransport false] :=
  (close_1006_short_circuits envAll [] serverState [66] true rfl rfl).1

set_option maxRecDepth 8000 in
/-- Claim C4, counterexample: the Close frame built by the close path for
status 1000 with a 124-byte reason carries a 126-byte payload (the decoder
reports payload length 126 for the emitted frame), exceeding the 125-byte
control-frame limit the claim asserts. -/
theorem close_frame_payload_can_exceed_125 :
    (Impl.Close envAll [] serverState 1000 (List.replicate 124 120) false).2 =
      [Event.sendData ([136, 126, 0, 126, 3, 232] ++ List.replicate 124 120)] ∧
    headerInfo Role.Client ([136, 126, 0, 126, 3, 232] ++ List.replicate 124 120) =
      some (4, 126) ∧
    ¬ (126 ≤ 125) := by
  decide

/-- Claim C4 (amended): every control frame the session emits has FIN set.
The public Ping and Pong operations additionally guarantee a payload of at
most 125 bytes (oversized payloads are silently dropped).  The close path
emits a Close frame whose payload is the two status bytes plus the reason,
bounded by 125 only when the reason is at most 123 bytes, and the
automatic Pong echo carries whatever payload the received Ping carried;
neither of those two is length-checked by the code. -/
theorem control_frame_fin_and_length_guards (env : Env) (mkey : List Nat)
    (s : WSState) (data reason : List Nat) (statusCode : Nat) (fail : Bool)
    (headerLength payloadLength : Nat) (opcode : Nat) (hop : opcode < 16) :
    frameFin (sendFrameBytes s.role true opcode data mkey) = true ∧
    (∀ f, Event.sendData f ∈ (WebSocket.Ping mkey s data).2 →
      f = sendFrameBytes s.role true 9 data mkey ∧ data.length ≤ 125) ∧
    (∀ f, Event.sendData f ∈ (WebSocket.Pong mkey s data).2 →
      f = sendFrameBytes s.role true 10 data mkey ∧ data.length ≤ 125) ∧
    (reason.length ≤ 123 →
      ∀ f, Event.sendData f ∈ (Impl.Close env mkey s statusCode reason fail).2 →
      ∃ d, f = sendFrameBytes s.role true 8 d mkey ∧ d.length ≤ 125) ∧
    (frameRsv s.reassemblyBuffer = 0 → frameOpcode s.reassemblyBuffer = 9 →
      Event.sendData (sendFrameBytes s.role true 10
          (extractData s.role s.reassemblyBuffer headerLength payloadLength) mkey) ∈
        (Impl.ReceiveFrame env mkey s headerLength payloadLength).2) := by
  refine ⟨?_, ?_, ?_, ?_, ?_⟩
  · simp only [frameFin, sendFrameBytes, List.getD_cons_zero, beq_iff_eq, if_true]
    omega
  · intro f hf
    simp only [WebSocket.Ping] at hf
    split_ifs at hf with h1 h2 <;> simp_all <;> omega
  · intro f hf
    simp only [WebSocket.Pong] at hf
    split_ifs at hf with h1 h2 <;> simp_all <;> omega
  · intro hr f hf
    simp only [Impl.Close] at hf
    split_ifs at hf with h1 h2 h3 h4 <;>
      simp_all [Impl.OnCloseReceipt] <;>
      exact ⟨_, rfl, by simp <;> omega⟩
  · intro h1 h2
    simp [Impl.ReceiveFrame, h1, h2]

/-- Witness for control_frame_fin_and_length_guards: the received Ping
echo at a concrete masked empty Ping frame. -/
theorem control_frame_fin_and_length_guards_witness :
    Event.sendData [138, 0] ∈
      (Impl.ReceiveFrame envAll []
        { serverState with reassemblyBuffer := [137, 128, 0, 0, 0, 0] } 6 0).2 := by
  have h := control_frame_fin_and_length_guards envAll []
    { serverState with reassemblyBuffer := [137, 128, 0, 0, 0, 0] } [] [] 1000 false
    6 0 9 (by decide)
  simpa using h.2.2.2.2 (by decide) (by decide)

/-- Status code delivered for a received Close payload: 1005 when the
payload is shorter than two bytes, else the big-endian 16-bit value of
its first two bytes (as computed in the OPCODE_CLOSE case of
ReceiveFrame). -/
def closeStatusCode (data : List Nat) : Nat :=
  if 2 ≤ data.length then (data.getD 0 0 % 256) * 256 + data.getD 1 0 % 256 else 1005

/-- Reason delivered for a received Close payload: the bytes after the
status code, empty when there is no status code. -/
def closeReason (data : List Nat) : List Nat :=
  if 2 ≤ data.length then data.drop 2 else []

/-- Claim C6 (amended): a received Close frame whose reason is valid UTF-8
marks closeWebSocketReceived, invokes the close delegate with the parsed
status code and reason, and, when closeWebSocketSent was already true at
receipt, tears the transport down — but with Break(false), i.e. the break
passed to the transport is the non-clean one, not the clean one the claim
states. -/
theorem receive_close_marks_and_reports (env : Env) (mkey : List Nat) (s : WSState)
    (headerLength payloadLength : Nat)
    (hop : frameOpcode s.reassemblyBuffer = 8)
    (hrsv : frameRsv s.reassemblyBuffer = 0)
    (hdel : env.hasClose = true)
    (hvalid : 2 ≤ (extractData s.role s.reassemblyBuffer headerLength payloadLength).length →
      env.utf8Valid ((extractData s.role s.reassemblyBuffer headerLength payloadLength).drop 2)
        = true) :
    (Impl.ReceiveFrame env mkey s headerLength payloadLength).1.closeWebSocketReceived = true ∧
    Event.closeEvent
        (closeStatusCode (extractData s.role s.reassemblyBuffer headerLength payloadLength))
        (closeReason (extractData s.role s.reassemblyBuffer headerLength payloadLength)) ∈
      (Impl.ReceiveFrame env mkey s headerLength payloadLength).2 ∧
    (s.closeWebSocketSent = true →
      (Impl.ReceiveFrame env mkey s headerLength payloadLength).2 =
        [Event.closeEvent
          (closeStatusCode (extractData s.role s.reassemblyBuffer headerLength payloadLength))
          (closeReason (extractData s.role s.reassemblyBuffer headerLength payloadLength)),
         Event.breakTransport false]) := by
  by_cases hlen : 2 ≤ (extractData s.role s.reassemblyBuffer headerLength payloadLength).length
  · simp [Impl.ReceiveFrame, hop, hrsv, hlen, hvalid hlen, Impl.OnCloseReceipt, hdel,
      closeStatusCode, closeReason]
  · simp [Impl.ReceiveFrame, hop, hrsv, hlen, Impl.OnCloseReceipt, hdel,
      closeStatusCode, closeReason]

/-- Witness for receive_close_marks_and_reports: Server receives the
masked empty Close frame 0x88 0x80 XXXX. -/
theorem receive_close_marks_and_reports_witness :
    ((Impl.ReceiveFrame envAll []
      { serverState with reassemblyBuffer := [136, 128, 88, 88, 88, 88] } 6 0).1).closeWebSocketReceived
      = true ∧
    Event.closeEvent 1005 [] ∈
      (Impl.ReceiveFrame envAll []
        { serverState with reassemblyBuffer := [136, 128, 88, 88, 88, 88] } 6 0).2 := by
  have h := receive_close_marks_and_reports envAll []
    { serverState with reassemblyBuffer := [136, 128, 88, 88, 88, 88] } 6 0
    (by decide) (by decide) rfl (by decide)
  exact ⟨h.1, by simpa using h.2.1⟩

/-- Claim C6, counterexample: the session has already sent its Close frame
and then receives the peer's (masked, empty) Close frame; the transport is
torn down with Break(false) and no clean Break(true) ever happens, so the
claim that the break indicates a clean closure is false. -/
theorem receive_close_after_close_sent_breaks_unclean :
    (Impl.ReceiveData envAll [[]] { serverState with closeWebSocketSent := true }
        [136, 128, 88, 88, 88, 88]).2 =
      [Event.closeEvent 1005 [], Event.breakTransport false] ∧
    Event.breakTransport true ∉
      (Impl.ReceiveData envAll [[]] { serverState with closeWebSocketSent := true }
        [136, 128, 88, 88, 88, 88]).2 := by
  have h : (Impl.ReceiveData envAll [[]] { serverState with closeWebSocketSent := true }
      [136, 128, 88, 88, 88, 88]).2 =
      [Event.closeEvent 1005 [], Event.breakTransport false] := by
    simp [Impl.ReceiveData, receiveDataGo, headerInfo, serverExtra, extendedLength16,
      extendedLength64, Impl.ReceiveFrame, frameRsv, frameOpcode, frameFin, extractData,
      Impl.OnCloseReceipt, envAll, serverState]
  exact ⟨h, by rw [h]; decide⟩

theorem getD_lt_256 {l : List Nat} (h : ∀ x ∈ l, x < 256) (i : Nat) : l.getD i 0 < 256 := by
  by_cases hi : i < l.length
  · rw [List.getD_eq_getElem l 0 hi]
    exact h _ (List.getElem_mem hi)
  · rw [List.getD_eq_default l 0 (Nat.le_of_not_lt hi)]
    omega

theorem extractData_bytes_lt (role : Role) (b : List Nat) (hl pl : Nat)
    (hb : ∀ x ∈ b, x < 256) : ∀ x ∈ extractData role b hl pl, x < 256 := by
  intro x hx
  unfold extractData at hx
  split at hx
  · simp only [List.mem_map] at hx
    obtain ⟨i, _, rfl⟩ := hx
    exact Nat.mod_lt _ (by omega)
  · exact hb _ (List.mem_of_mem_drop (List.mem_of_mem_take hx))

/-- Claim C7 (amended): for a received Close frame, a payload of at least
two bytes delivers the big-endian 16-bit status code of its first two
bytes with the remaining bytes as reason; a payload of zero or one byte
delivers 1005 with an empty reason; and a reason that is not valid UTF-8
fails the connection with 1007 and the fixed reason text (so the close
delegate never sees the peer status code), provided — this is the
amendment — no Close frame had been sent yet, since otherwise the
internal Close short-circuits and the 1007 failure produces no output at
all. -/
theorem received_close_frame_parsing (env : Env) (mkey : List Nat) (s : WSState)
    (headerLength payloadLength : Nat)
    (hb : ∀ x ∈ s.reassemblyBuffer, x < 256)
    (hop : frameOpcode s.reassemblyBuffer = 8)
    (hrsv : frameRsv s.reassemblyBuffer = 0)
    (hdel : env.hasClose = true)
    (hsent : s.closeWebSocketSent = false) :
    (2 ≤ (extractData s.role s.reassemblyBuffer headerLength payloadLength).length →
      env.utf8Valid
        ((extractData s.role s.reassemblyBuffer headerLength payloadLength).drop 2) = true →
      Event.closeEvent
          ((extractData s.role s.reassemblyBuffer headerLength payloadLength).getD 0 0 * 256 +
            (extractData s.role s.reassemblyBuffer headerLength payloadLength).getD 1 0)
          ((extractData s.role s.reassemblyBuffer headerLength payloadLength).drop 2) ∈
        (Impl.ReceiveFrame env mkey s headerLength payloadLength).2) ∧
    (2 ≤ (extractData s.role s.reassemblyBuffer headerLength payloadLength).length →
      env.utf8Valid
        ((extractData s.role s.reassemblyBuffer headerLength payloadLength).drop 2) = false →
      (Impl.ReceiveFrame env mkey s headerLength payloadLength).2 =
        [Event.sendData (sendFrameBytes s.role true 8
           (3 :: 239 :: strBytes "invalid UTF-8 encoding in close reason") mkey),
         Event.closeEvent 1007 (strBytes "invalid UTF-8 encoding in close reason"),
         Event.breakTransport false]) ∧
    ((extractData s.role s.reassemblyBuffer headerLength payloadLength).length < 2 →
      Event.closeEvent 1005 [] ∈ (Impl.ReceiveFrame env mkey s headerLength payloadLength).2) := by
  refine ⟨?_, ?_, ?_⟩
  · intro hlen hutf
    have h0 := getD_lt_256
      (extractData_bytes_lt s.role s.reassemblyBuffer headerLength payloadLength hb) 0
    have h1 := getD_lt_256
      (extractData_bytes_lt s.role s.reassemblyBuffer headerLength payloadLength hb) 1
    simp [Impl.ReceiveFrame, hop, hrsv, hlen, hutf, Impl.OnCloseReceipt, hdel]
    simp only [List.getD_eq_getElem?_getD] at h0 h1
    omega
  · intro hlen hutf
    simp [Impl.ReceiveFrame, hop, hrsv, hlen, hutf, Impl.Close, hsent,
      Impl.OnCloseReceipt, hdel]
  · intro hlen
    have hlen' : ¬ 2 ≤ (extractData s.role s.reassemblyBuffer headerLength payloadLength).length :=
      by omega
    simp [Impl.ReceiveFrame, hop, hrsv, hlen', Impl.OnCloseReceipt, hdel]

/-- Witness for received_close_frame_parsing: Client receives the unmasked
Close frame 0x88 0x02 0x03 0xE8 (status 1000, empty reason). -/
theorem received_close_frame_parsing_witness :
    Event.closeEvent 1000 [] ∈
      (Impl.ReceiveFrame envAll []
        { clientState with reassemblyBuffer := [136, 2, 3, 232] } 2 2).2 := by
  have h := received_close_frame_parsing envAll []
    { clientState with reassemblyBuffer := [136, 2, 3, 232] } 2 2
    (by decide) (by decide) (by decide) rfl rfl
  simpa [extractData] using h.1 (by decide) (by decide)

/-- Claim C7, counterexample: after a Close frame has already been sent, a
received Close frame whose reason is invalid UTF-8 (here the single byte
0xFF, rejected by an oracle that accepts only the empty sequence) produces
no events at all — the connection is not failed with 1007 as the claim
requires, because the internal Close returns immediately once
closeWebSocketSent is true. -/
theorem close_invalid_utf8_after_close_sent_noop :
    envEmptyValid.utf8Valid [255] = false ∧
    headerInfo Role.Client [136, 3, 3, 232, 255] = some (2, 3) ∧
    (Impl.ReceiveFrame envEmptyValid []
      { clientState with
          closeWebSocketSent := true
          reassemblyBuffer := [136, 3, 3, 232, 255] } 2 3).2 = [] := by
  decide

/-- Claim C10: the dispatch of data and control frames in the receive path
never consults closeWebSocketSent or closeWebSocketReceived — the stated
event traces hold for every value of the two flags, so after the close
delegate has fired a Ping still produces the ping delegate call plus a
Pong reply on the transport, and the pong, text and binary delegates can
all still be invoked. -/
theorem receive_dispatch_ignores_close_flags (env : Env) (mkey : List Nat)
    (s : WSState) (headerLength payloadLength : Nat)
    (hrsv : frameRsv s.reassemblyBuffer = 0)
    (hfin : frameFin s.reassemblyBuffer = true)
    (hping : env.hasPing = true) (hpong : env.hasPong = true)
    (htext : env.hasText = true) (hbin : env.hasBinary = true) :
    (frameOpcode s.reassemblyBuffer = 9 →
      (Impl.ReceiveFrame env mkey s headerLength payloadLength).2 =
        [Event.pingEvent (extractData s.role s.reassemblyBuffer headerLength payloadLength),
         Event.sendData (sendFrameBytes s.role true 10
           (extractData s.role s.reassemblyBuffer headerLength payloadLength) mkey)]) ∧
    (frameOpcode s.reassemblyBuffer = 10 →
      (Impl.ReceiveFrame env mkey s headerLength payloadLength).2 =
        [Event.pongEvent (extractData s.role s.reassemblyBuffer headerLength payloadLength)]) ∧
    (frameOpcode s.reassemblyBuffer = 1 → s.receiving = FragmentedMessageType.None →
      env.utf8Valid (extractData s.role s.reassemblyBuffer headerLength payloadLength) = true →
      (Impl.ReceiveFrame env mkey s headerLength payloadLength).2 =
        [Event.textEvent (extractData s.role s.reassemblyBuffer headerLength payloadLength)]) ∧
    (frameOpcode s.reassemblyBuffer = 2 → s.receiving = FragmentedMessageType.None →
      (Impl.ReceiveFrame env mkey s headerLength payloadLength).2 =
        [Event.binaryEvent (extractData s.role s.reassemblyBuffer headerLength payloadLength)]) := by
  refine ⟨?_, ?_, ?_, ?_⟩
  · intro hop
    simp [Impl.ReceiveFrame, hrsv, hop, hping]
  · intro hop
    simp [Impl.ReceiveFrame, hrsv, hop, hpong]
  · intro hop hrecv hutf
    simp [Impl.ReceiveFrame, hrsv, hop, hrecv, hfin, Impl.OnTextMessage, hutf, htext]
  · intro hop hrecv
    simp [Impl.ReceiveFrame, hrsv, hop, hrecv, hfin, hbin]

/-- Witness for receive_dispatch_ignores_close_flags: a masked Ping with
payload still produces its echo after both close flags are set. -/
theorem receive_dispatch_ignores_close_flags_witness :
    (Impl.ReceiveFrame envAll []
      { serverState with
          closeWebSocketSent := true
          closeWebSocketReceived := true
          reassemblyBuffer := [137, 129, 0, 0, 0, 0, 65] } 6 1).2 =
      [Event.pingEvent [65], Event.sendData [138, 1, 65]] := by
  have h := receive_dispatch_ignores_close_flags envAll []
    { serverState with
        closeWebSocketSent := true
        closeWebSocketReceived := true
        reassemblyBuffer := [137, 129, 0, 0, 0, 0, 65] } 6 1
    (by decide) (by decide) rfl rfl rfl rfl
  have h9 := h.1 (by decide)
  rw [h9]
  decide

/-- Claim C2 (amended): a failing CompleteOpenAsClient leaves the session
state fully unchanged, and a failing OpenAsServer leaves it unchanged
except that, when the failure is the key-length check, the stored
handshake key has already been overwritten with the request's
Sec-WebSocket-Key value (the assignment in OpenAsServer precedes the
check); no failure binds the transport or changes the role. -/
theorem open_failure_leaves_state_except_key (env : Env) (cenv : CryptoEnv)
    (mkeys : List (List Nat)) (s : WSState) (connection connection2 : Nat)
    (request : HttpRequest) (trailer : List Nat) (response : HttpResponse) :
    ((WebSocket.OpenAsServer env cenv mkeys s connection request trailer).ok = false →
      (WebSocket.OpenAsServer env cenv mkeys s connection request trailer).state = s ∨
      (WebSocket.OpenAsServer env cenv mkeys s connection request trailer).state =
        { s with key := request.headers.getValue "sec-WebSocket-key" }) ∧
    ((WebSocket.CompleteOpenAsClient cenv s connection2 response).1 = false →
      (WebSocket.CompleteOpenAsClient cenv s connection2 response).2 = s) := by
  constructor
  · intro hfail
    simp only [WebSocket.OpenAsServer] at hfail ⊢
    split_ifs at hfail ⊢ <;> simp_all
  · intro hfail
    simp only [WebSocket.CompleteOpenAsClient] at hfail ⊢
    split_ifs at hfail ⊢ <;> simp_all

/-- Request fixture: version 13, Connection upgrade, Upgrade websocket,
and a Sec-WebSocket-Key that does not decode to 16 bytes (under the
identity Base64 of cenvId). -/
def requestBadKey : HttpRequest :=
  ⟨⟨fun n =>
      if n = "Sec-WebSocket-Version" then "13"
      else if n = "Upgrade" then "websocket"
      else if n = "sec-WebSocket-key" then "shortkey"
      else "",
    fun n => if n = "Connection" then ["upgrade"] else [],
    fun _ => []⟩⟩

/-- Witness for open_failure_leaves_state_except_key: a response whose
status is not 101 fails CompleteOpenAsClient without touching the state. -/
theorem open_failure_leaves_state_except_key_witness :
    (WebSocket.CompleteOpenAsClient cenvId idleState 1
      ⟨400, "", ⟨fun _ => "", fun _ => [], fun _ => []⟩⟩).2 = idleState := by
  have h := open_failure_leaves_state_except_key envAll cenvId [] idleState 1 1
    requestBadKey [] ⟨400, "", ⟨fun _ => "", fun _ => [], fun _ => []⟩⟩
  exact h.2 (by decide)

/-- Claim C2, counterexample: OpenAsServer on a request whose key fails
the 16-byte check returns false but has already overwritten the stored
handshake key — the session state is not left unchanged on this failure
path. -/
theorem openAsServer_failure_mutates_key :
    (WebSocket.OpenAsServer envAll cenvId [] idleState 1 requestBadKey []).ok = false ∧
    (WebSocket.OpenAsServer envAll cenvId [] idleState 1 requestBadKey []).state ≠ idleState ∧
    (WebSocket.OpenAsServer envAll cenvId [] idleState 1 requestBadKey []).state.key
      = "shortkey" := by
  refine ⟨?_, ?_, ?_⟩ <;> decide

/-- Response fixture: a perfectly valid 101 upgrade response (status,
Connection token, Upgrade value, matching accept under cenvId and the
stored empty key) that also advertises a Sec-WebSocket-Extensions token.
The implementation queries the header name Sec-WebSocket-Extension, so it
never sees that token. -/
def respWithExtensions : HttpResponse :=
  ⟨101, "Switching Protocols",
    ⟨fun n =>
      if n = "Upgrade" then "websocket"
      else if n = "Sec-WebSocket-Accept" then "258EAFA5-E914-47DA-95CA-C5AB0DC85B11"
      else "",
    fun n =>
      if n = "Connection" then ["upgrade"]
      else if n = "Sec-WebSocket-Extensions" then ["permessage-deflate"]
      else [],
    fun _ => []⟩⟩

/-- Claim C3 (code bug): CompleteOpenAsClient accepts — and binds the
transport for — a response that carries a Sec-WebSocket-Extensions token,
although the claim and the specification require it to fail; the code
checks the header name Sec-WebSocket-Extension (without the final s), so
the specification-side success condition is false at this input while the
implementation returns true. -/
theorem completeOpenAsClient_ignores_extensions_header :
    (WebSocket.CompleteOpenAsClient cenvId idleState 1 respWithExtensions).1 = true ∧
    ((WebSocket.CompleteOpenAsClient cenvId idleState 1 respWithExtensions).2).connection
      = some 1 ∧
    ¬ completeOpenAsClientSpec cenvId idleState.key respWithExtensions := by
  refine ⟨by decide, by decide, ?_⟩
  simp only [completeOpenAsClientSpec]
  decide

/-! Chunk-boundary insensitivity of the frame decoder (claim C8). -/

theorem extendedLength16_append {b : List Nat} (d : List Nat) (h : 4 ≤ b.length) :
    extendedLength16 (b ++ d) = extendedLength16 b := by
  unfold extendedLength16
  rw [List.getD_append b d 0 2 (by omega), List.getD_append b d 0 3 (by omega)]

theorem extendedLength64_append {b : List Nat} (d : List Nat) (h : 10 ≤ b.length) :
    extendedLength64 (b ++ d) = extendedLength64 b := by
  unfold extendedLength64
  rw [List.getD_append b d 0 2 (by omega), List.getD_append b d 0 3 (by omega),
    List.getD_append b d 0 4 (by omega), List.getD_append b d 0 5 (by omega),
    List.getD_append b d 0 6 (by omega), List.getD_append b d 0 7 (by omega),
    List.getD_append b d 0 8 (by omega), List.getD_append b d 0 9 (by omega)]

/-- Completed frame boundaries are stable under arrival of further bytes:
the loop of ReceiveData computes the same header and payload lengths for a
complete frame no matter what follows it in the buffer. -/
theorem headerInfo_append {role : Role} {b : List Nat} {hp : Nat × Nat} (d : List Nat)
    (h : headerInfo role b = some hp) : headerInfo role (b ++ d) = some hp := by
  unfold headerInfo at h ⊢
  by_cases h2 : b.length < 2
  · rw [if_pos h2] at h
    exact absurd h (by simp)
  rw [if_neg h2] at h
  rw [if_neg (show ¬ (b ++ d).length < 2 by rw [List.length_append]; omega)]
  rw [List.getD_append b d 0 1 (by omega)]
  by_cases hc1 : b.getD 1 0 % 128 = 126
  · rw [if_pos hc1] at h ⊢
    by_cases h4 : b.length < 4
    · rw [if_pos h4] at h
      exact absurd h (by simp)
    rw [if_neg h4] at h
    rw [if_neg (show ¬ (b ++ d).length < 4 by rw [List.length_append]; omega)]
    rw [extendedLength16_append d (by omega)]
    split at h
    · exact absurd h (by simp)
    · rename_i hfits
      rw [if_neg (show ¬ (b ++ d).length < 4 + serverExtra role + extendedLength16 b by
        rw [List.length_append]; omega)]
      exact h
  · rw [if_neg hc1] at h ⊢
    by_cases hc2 : b.getD 1 0 % 128 = 127
    · rw [if_pos hc2] at h ⊢
      by_cases h10 : b.length < 10
      · rw [if_pos h10] at h
        exact absurd h (by simp)
      rw [if_neg h10] at h
      rw [if_neg (show ¬ (b ++ d).length < 10 by rw [List.length_append]; omega)]
      rw [extendedLength64_append d (by omega)]
      split at h
      · exact absurd h (by simp)
      · rename_i hfits
        rw [if_neg (show ¬ (b ++ d).length < 10 + serverExtra role + extendedLength64 b by
          rw [List.length_append]; omega)]
        exact h
    · rw [if_neg hc2] at h ⊢
      split at h
      · exact absurd h (by simp)
      · rename_i hfits
        rw [if_neg (show ¬ (b ++ d).length < 2 + serverExtra role + b.getD 1 0 % 128 by
          rw [List.length_append]; omega)]
        exact h

/-- The extracted payload of a complete frame only depends on the bytes of
that frame. -/
theorem extractData_append {role : Role} {b : List Nat} (d : List Nat) {hl pl : Nat}
    (h : hl + pl ≤ b.length) :
    extractData role (b ++ d) hl pl = extractData role b hl pl := by
  unfold extractData
  split
  · refine List.map_congr_left ?_
    intro i hi
    rw [List.mem_range] at hi
    rw [List.getD_append b d 0 (hl + i) (by omega),
      List.getD_append b d 0 (hl - 4 + i % 4) (by have := Nat.mod_lt i (y := 4); omega)]
  · rw [List.drop_append_of_le_length (by omega),
      List.take_append_of_le_length (by simp [List.length_drop]; omega)]

/-- One decoding step is stable under arrival of further bytes. -/
theorem decodeStep_append {role : Role} {b : List Nat} {fr : Frame × List Nat}
    (d : List Nat) (h : decodeStep role b = some fr) :
    decodeStep role (b ++ d) = some (fr.1, fr.2 ++ d) := by
  unfold decodeStep at h ⊢
  cases hh : headerInfo role b with
  | none => rw [hh] at h; exact absurd h (by simp)
  | some hp =>
      rw [hh] at h
      obtain ⟨hb1, hb2⟩ := headerInfo_bounds hh
      rw [headerInfo_append d hh]
      simp only [Option.some.injEq] at h
      subst h
      have h0 : (b ++ d).getD 0 0 = b.getD 0 0 := List.getD_append b d 0 0 (by omega)
      have e1 : frameFin (b ++ d) = frameFin b := by unfold frameFin; rw [h0]
      have e2 : frameRsv (b ++ d) = frameRsv b := by unfold frameRsv; rw [h0]
      have e3 : frameOpcode (b ++ d) = frameOpcode b := by unfold frameOpcode; rw [h0]
      simp [e1, e2, e3, extractData_append d hb2, List.drop_append_of_le_length hb2]

theorem extractFrames_eq_of_none {role : Role} {b : List Nat}
    (h : decodeStep role b = none) : extractFrames role b = ([], b) := by
  rw [extractFrames, h]

theorem extractFrames_eq_of_some {role : Role} {b : List Nat} {fr : Frame × List Nat}
    (h : decodeStep role b = some fr) :
    extractFrames role b =
      (fr.1 :: (extractFrames role fr.2).1, (extractFrames role fr.2).2) := by
  rw [extractFrames, h]

theorem extractFrames_append_aux (role : Role) (n : Nat) :
    ∀ (b d : List Nat), b.length ≤ n →
      extractFrames role (b ++ d) =
        ((extractFrames role b).1 ++
          (extractFrames role ((extractFrames role b).2 ++ d)).1,
         (extractFrames role ((extractFrames role b).2 ++ d)).2) := by
  induction n with
  | zero =>
      intro b d hb
      cases hd : decodeStep role b with
      | none =>
          rw [extractFrames_eq_of_none hd]
          simp
      | some fr =>
          have hlen : fr.2.length < b.length :=
            decodeStep_rest_length hd
          omega
  | succ n ih =>
      intro b d hb
      cases hd : decodeStep role b with
      | none =>
          rw [extractFrames_eq_of_none hd]
          simp
      | some fr =>
          have hlen : fr.2.length < b.length :=
            decodeStep_rest_length hd
          rw [extractFrames_eq_of_some hd,
            extractFrames_eq_of_some (decodeStep_append d hd),
            ih fr.2 d (by omega)]
          simp

theorem extractFrames_append (role : Role) (b d : List Nat) :
    extractFrames role (b ++ d) =
      ((extractFrames role b).1 ++
        (extractFrames role ((extractFrames role b).2 ++ d)).1,
       (extractFrames role ((extractFrames role b).2 ++ d)).2) :=
  extractFrames_append_aux role b.length b d (Nat.le_refl _)

theorem extractFrames_residual_aux (role : Role) (n : Nat) :
    ∀ b : List Nat, b.length ≤ n →
      decodeStep role (extractFrames role b).2 = none := by
  induction n with
  | zero =>
      intro b hb
      cases hd : decodeStep role b with
      | none =>
          rw [extractFrames_eq_of_none hd]
          exact hd
      | some fr =>
          have hlen : fr.2.length < b.length :=
            decodeStep_rest_length hd
          omega
  | succ n ih =>
      intro b hb
      cases hd : decodeStep role b with
      | none =>
          rw [extractFrames_eq_of_none hd]
          exact hd
      | some fr =>
          have hlen : fr.2.length < b.length :=
            decodeStep_rest_length hd
          rw [extractFrames_eq_of_some hd]
          exact ih fr.2 (by omega)

theorem extractFrames_residual (role : Role) (b : List Nat) :
    decodeStep role (extractFrames role b).2 = none :=
  extractFrames_residual_aux role b.length b (Nat.le_refl _)

/-- Feeding a sequence of chunks to ReceiveData one call at a time: each
call appends its chunk to the residual buffer and extracts every complete
frame, accumulating the decoded frames. -/
def feedChunks (role : Role) (chunks : List (List Nat)) : List Frame × List Nat :=
  chunks.foldl
    (fun st chunk =>
      (st.1 ++ (extractFrames role (st.2 ++ chunk)).1,
       (extractFrames role (st.2 ++ chunk)).2))
    ([], [])

theorem feedChunks_go (role : Role) (chunks : List (List Nat)) :
    ∀ (acc : List Frame) (buf : List Nat), decodeStep role buf = none →
      chunks.foldl
        (fun st chunk =>
          (st.1 ++ (extractFrames role (st.2 ++ chunk)).1,
           (extractFrames role (st.2 ++ chunk)).2)) (acc, buf) =
      (acc ++ (extractFrames role (buf ++ chunks.flatten)).1,
       (extractFrames role (buf ++ chunks.flatten)).2) := by
  induction chunks with
  | nil =>
      intro acc buf hres
      simp [extractFrames_eq_of_none hres]
  | cons c cs ih =>
      intro acc buf hres
      simp only [List.foldl_cons, List.flatten_cons]
      rw [ih _ _ (extractFrames_residual role (buf ++ c))]
      rw [show buf ++ (c ++ cs.flatten) = (buf ++ c) ++ cs.flatten by simp]
      rw [extractFrames_append role (buf ++ c) cs.flatten]
      simp

/-- Claim C8: the frame decoder is insensitive to chunk boundaries — for
every byte sequence, every way of splitting it into consecutive chunks
delivered to ReceiveData, and both roles, the sequence of decoded
(fin, rsv, opcode, payload) frames handed to the control logic (and the
residual buffer) is the same as when the whole sequence arrives in a
single call. -/
theorem receive_chunking_insensitive (role : Role) (chunks : List (List Nat)) :
    feedChunks role chunks = extractFrames role chunks.flatten := by
  unfold feedChunks
  rw [feedChunks_go role chunks [] [] (by simp [decodeStep, headerInfo])]
  simp

/-! Masking round-trip (claim C9). -/

/-- Length of the header (first octet plus length field) of an encoded
frame carrying n payload bytes, before any masking key. -/
def frameHeaderLen (n : Nat) : Nat :=
  if n < 126 then 2 else if n < 65536 then 4 else 10

theorem getD_map_range {f : Nat → Nat} {m j : Nat} (h : j < m) :
    ((List.range m).map f).getD j 0 = f j := by
  rw [List.getD_eq_getElem _ _ (by simpa using h)]
  simp

theorem getD_append_append_payload (h1 k m : List Nat) (j : Nat) :
    (h1 ++ (k ++ m)).getD (h1.length + k.length + j) 0 = m.getD j 0 := by
  rw [List.getD_append_right _ _ _ _ (by omega),
    List.getD_append_right _ _ _ _ (by omega)]
  congr 1
  omega

theorem getD_append_append_key (h1 k m : List Nat) {j : Nat} (hj : j < k.length) :
    (h1 ++ (k ++ m)).getD (h1.length + j) 0 = k.getD j 0 := by
  rw [List.getD_append_right _ _ _ _ (by omega)]
  have e : h1.length + j - h1.length = j := by omega
  rw [e, List.getD_append _ _ _ _ hj]

theorem unmask_byte {p k : Nat} (hp : p < 256) (hk : k < 256) :
    ((p ^^^ k) % 256 ^^^ k) % 256 = p := by
  have h1 : p ^^^ k < 256 := by
    have := Nat.xor_lt_two_pow (n := 8) (x := p) (y := k) (by simpa using hp)
      (by simpa using hk)
    simpa using this
  rw [Nat.mod_eq_of_lt h1, Nat.xor_assoc, Nat.xor_self, Nat.xor_zero,
    Nat.mod_eq_of_lt hp]

/-- Server-side unmasking applied to the key and masked-payload segments
of a Client-encoded frame recovers the payload. -/
theorem clientFrameExtract (hdr payload maskingKey : List Nat)
    (hbytes : ∀ x ∈ payload, x < 256) :
    extractData Role.Server
      (hdr ++ (((List.range 4).map fun j => maskingKey.getD j 0 % 256) ++
        ((List.range payload.length).map fun j =>
          (payload.getD j 0 ^^^ (maskingKey.getD (j % 4) 0 % 256)) % 256)))
      (hdr.length + 4) payload.length = payload := by
  unfold extractData
  rw [if_pos rfl]
  apply List.ext_getElem
  · simp
  · intro i h1 h2
    rw [List.getElem_map, List.getElem_range]
    have hi : i < payload.length := by simpa using h2
    have e0 : hdr.length + 4 + i =
        hdr.length + ((List.range 4).map fun j => maskingKey.getD j 0 % 256).length + i := by
      simp
    have e1 : hdr.length + 4 - 4 + i % 4 = hdr.length + i % 4 := by omega
    rw [e0, getD_append_append_payload, e1,
      getD_append_append_key _ _ _ (by simp [Nat.mod_lt i (y := 4)]),
      getD_map_range hi, getD_map_range (Nat.mod_lt i (by omega)),
      unmask_byte (getD_lt_256 hbytes i) (Nat.mod_lt _ (by omega))]
    rw [List.getD_eq_getElem _ _ hi]

theorem roundtrip_short (fin : Bool) (opcode : Nat) (payload maskingKey : List Nat)
    (hop : opcode < 16) (hbytes : ∀ x ∈ payload, x < 256)
    (h126 : payload.length < 126) :
    (sendFrameBytes Role.Client fin opcode payload maskingKey).getD 1 0 / 128 % 2 = 1 ∧
    (sendFrameBytes Role.Client fin opcode payload maskingKey).length =
      frameHeaderLen payload.length + 4 + payload.length ∧
    (∀ i, i < payload.length →
      (sendFrameBytes Role.Client fin opcode payload maskingKey).getD
          (frameHeaderLen payload.length + 4 + i) 0 =
        (payload.getD i 0 ^^^
          (sendFrameBytes Role.Client fin opcode payload maskingKey).getD
            (frameHeaderLen payload.length + i % 4) 0) % 256) ∧
    (sendFrameBytes Role.Server fin opcode payload maskingKey).getD 1 0 / 128 % 2 = 0 ∧
    (sendFrameBytes Role.Server fin opcode payload maskingKey).drop
        (frameHeaderLen payload.length) = payload ∧
    decodeStep Role.Server (sendFrameBytes Role.Client fin opcode payload maskingKey) =
      some (⟨fin, 0, opcode, payload⟩, []) := by
  have hHL : frameHeaderLen payload.length = 2 := by
    simp [frameHeaderLen, h126]
  have hL : (payload.length % 256 + 128) % 256 = payload.length + 128 := by omega
  have hF : sendFrameBytes Role.Client fin opcode payload maskingKey =
      ((((if fin then 128 else 0) + opcode) % 256) :: [payload.length + 128]) ++
        (((List.range 4).map fun j => maskingKey.getD j 0 % 256) ++
         ((List.range payload.length).map fun j =>
           (payload.getD j 0 ^^^ (maskingKey.getD (j % 4) 0 % 256)) % 256)) := by
    simp [sendFrameBytes, h126, hL]
  have hFs : sendFrameBytes Role.Server fin opcode payload maskingKey =
      ((((if fin then 128 else 0) + opcode) % 256) :: [payload.length % 256]) ++ payload := by
    simp [sendFrameBytes, h126]
  have hb1 : (sendFrameBytes Role.Client fin opcode payload maskingKey).getD 1 0 =
      payload.length + 128 := by
    rw [hF, List.getD_append _ _ _ _ (by simp)]
    simp
  have hb0 : (sendFrameBytes Role.Client fin opcode payload maskingKey).getD 0 0 =
      ((if fin then 128 else 0) + opcode) % 256 := by
    rw [hF, List.getD_append _ _ _ _ (by simp)]
    simp
  have hlenF : (sendFrameBytes Role.Client fin opcode payload maskingKey).length =
      6 + payload.length := by
    rw [hF]
    simp
    omega
  refine ⟨?_, ?_, ?_, ?_, ?_, ?_⟩
  · rw [hb1]
    omega
  · rw [hlenF, hHL]
  · intro i hi
    rw [hHL, hF]
    have e0 : 2 + 4 + i =
        ((((if fin then 128 else 0) + opcode) % 256) :: [payload.length + 128]).length +
        ((List.range 4).map fun j => maskingKey.getD j 0 % 256).length + i := by
      simp
    have e1 : 2 + i % 4 =
        ((((if fin then 128 else 0) + opcode) % 256) :: [payload.length + 128]).length +
        i % 4 := by
      simp
    rw [e0, getD_append_append_payload, e1,
      getD_append_append_key _ _ _ (by simp [Nat.mod_lt i (y := 4)]),
      getD_map_range hi, getD_map_range (Nat.mod_lt i (by omega))]
  · rw [hFs, List.getD_append _ _ _ _ (by simp)]
    simp
    omega
  · rw [hFs, hHL]
    rw [List.drop_left' (by simp)]
  · have hse : serverExtra Role.Server = 4 := rfl
    have hHI : headerInfo Role.Server
        (sendFrameBytes Role.Client fin opcode payload maskingKey) =
        some (6, payload.length) := by
      have c1 : ¬ (sendFrameBytes Role.Client fin opcode payload maskingKey).length < 2 := by
        rw [hlenF]
        omega
      have c2 : (sendFrameBytes Role.Client fin opcode payload maskingKey).getD 1 0 % 128 =
          payload.length := by
        rw [hb1]
        omega
      have c5 : ¬ (sendFrameBytes Role.Client fin opcode payload maskingKey).length <
          2 + serverExtra Role.Server + payload.length := by
        rw [hse, hlenF]
        omega
      unfold headerInfo
      rw [if_neg c1, c2, if_neg (show ¬ payload.length = 126 by omega),
        if_neg (show ¬ payload.length = 127 by omega), if_neg c5, hse]
    unfold decodeStep
    rw [hHI]
    have hfin : frameFin (sendFrameBytes Role.Client fin opcode payload maskingKey) = fin := by
      unfold frameFin
      rw [hb0]
      cases fin <;> simp <;> omega
    have hrsv : frameRsv (sendFrameBytes Role.Client fin opcode payload maskingKey) = 0 := by
      unfold frameRsv
      rw [hb0, Nat.shiftRight_eq_div_pow]
      cases fin <;> simp <;> omega
    have hopc : frameOpcode (sendFrameBytes Role.Client fin opcode payload maskingKey)
        = opcode := by
      unfold frameOpcode
      rw [hb0]
      cases fin <;> simp <;> omega
    have hex : extractData Role.Server
        (sendFrameBytes Role.Client fin opcode payload maskingKey) 6 payload.length
        = payload := by
      rw [hF]
      rw [show (6 : Nat) =
        ((((if fin then 128 else 0) + opcode) % 256) :: [payload.length + 128]).length + 4
        from by simp]
      exact clientFrameExtract _ payload maskingKey hbytes
    have hdrop : (sendFrameBytes Role.Client fin opcode payload maskingKey).drop
        (6 + payload.length) = [] := by
      apply List.drop_eq_nil_of_le
      rw [hlenF]
    simp [hfin, hrsv, hopc, hex, hdrop]

theorem roundtrip_medium (fin : Bool) (opcode : Nat) (payload maskingKey : List Nat)
    (hop : opcode < 16) (hbytes : ∀ x ∈ payload, x < 256)
    (h126 : ¬ payload.length < 126) (h65536 : payload.length < 65536) :
    (sendFrameBytes Role.Client fin opcode payload maskingKey).getD 1 0 / 128 % 2 = 1 ∧
    (sendFrameBytes Role.Client fin opcode payload maskingKey).length =
      frameHeaderLen payload.length + 4 + payload.length ∧
    (∀ i, i < payload.length →
      (sendFrameBytes Role.Client fin opcode payload maskingKey).getD
          (frameHeaderLen payload.length + 4 + i) 0 =
        (payload.getD i 0 ^^^
          (sendFrameBytes Role.Client fin opcode payload maskingKey).getD
            (frameHeaderLen payload.length + i % 4) 0) % 256) ∧
    (sendFrameBytes Role.Server fin opcode payload maskingKey).getD 1 0 / 128 % 2 = 0 ∧
    (sendFrameBytes Role.Server fin opcode payload maskingKey).drop
        (frameHeaderLen payload.length) = payload ∧
    decodeStep Role.Server (sendFrameBytes Role.Client fin opcode payload maskingKey) =
      some (⟨fin, 0, opcode, payload⟩, []) := by
  have hHL : frameHeaderLen payload.length = 4 := by
    simp [frameHeaderLen, h126, h65536]
  have hF : sendFrameBytes Role.Client fin opcode payload maskingKey =
      ((((if fin then 128 else 0) + opcode) % 256) ::
        [254, payload.length >>> 8 % 256, payload.length % 256]) ++
        (((List.range 4).map fun j => maskingKey.getD j 0 % 256) ++
         ((List.range payload.length).map fun j =>
           (payload.getD j 0 ^^^ (maskingKey.getD (j % 4) 0 % 256)) % 256)) := by
    simp [sendFrameBytes, h126, h65536]
  have hFs : sendFrameBytes Role.Server fin opcode payload maskingKey =
      ((((if fin then 128 else 0) + opcode) % 256) ::
        [126, payload.length >>> 8 % 256, payload.length % 256]) ++ payload := by
    simp [sendFrameBytes, h126, h65536]
  have hb1 : (sendFrameBytes Role.Client fin opcode payload maskingKey).getD 1 0 = 254 := by
    rw [hF, List.getD_append _ _ _ _ (by simp)]
    simp
  have hb0 : (sendFrameBytes Role.Client fin opcode payload maskingKey).getD 0 0 =
      ((if fin then 128 else 0) + opcode) % 256 := by
    rw [hF, List.getD_append _ _ _ _ (by simp)]
    simp
  have hlenF : (sendFrameBytes Role.Client fin opcode payload maskingKey).length =
      8 + payload.length := by
    rw [hF]
    simp
    omega
  refine ⟨?_, ?_, ?_, ?_, ?_, ?_⟩
  · rw [hb1]
  · rw [hlenF, hHL]
  · intro i hi
    rw [hHL, hF]
    have e0 : 4 + 4 + i =
        ((((if fin then 128 else 0) + opcode) % 256) ::
          [254, payload.length >>> 8 % 256, payload.length % 256]).length +
        ((List.range 4).map fun j => maskingKey.getD j 0 % 256).length + i := by
      simp
    have e1 : 4 + i % 4 =
        ((((if fin then 128 else 0) + opcode) % 256) ::
          [254, payload.length >>> 8 % 256, payload.length % 256]).length + i % 4 := by
      simp
    rw [e0, getD_append_append_payload, e1,
      getD_append_append_key _ _ _ (by simp [Nat.mod_lt i (y := 4)]),
      getD_map_range hi, getD_map_range (Nat.mod_lt i (by omega))]
  · rw [hFs, List.getD_append _ _ _ _ (by simp)]
    simp
  · rw [hFs, hHL]
    rw [List.drop_left' (by simp)]
  · have hse : serverExtra Role.Server = 4 := rfl
    have hE16 : extendedLength16 (sendFrameBytes Role.Client fin opcode payload maskingKey) =
        payload.length := by
      have g2 : (sendFrameBytes Role.Client fin opcode payload maskingKey).getD 2 0 =
          payload.length >>> 8 % 256 := by
        rw [hF, List.getD_append _ _ _ _ (by simp)]
        simp
      have g3 : (sendFrameBytes Role.Client fin opcode payload maskingKey).getD 3 0 =
          payload.length % 256 := by
        rw [hF, List.getD_append _ _ _ _ (by simp)]
        simp
      unfold extendedLength16
      rw [g2, g3, Nat.shiftLeft_eq, Nat.shiftRight_eq_div_pow]
      norm_num
      omega
    have hHI : headerInfo Role.Server
        (sendFrameBytes Role.Client fin opcode payload maskingKey) =
        some (8, payload.length) := by
      have c1 : ¬ (sendFrameBytes Role.Client fin opcode payload maskingKey).length < 2 := by
        rw [hlenF]
        omega
      have c2 : (sendFrameBytes Role.Client fin opcode payload maskingKey).getD 1 0 % 128 =
          126 := by
        rw [hb1]
      have c3 : ¬ (sendFrameBytes Role.Client fin opcode payload maskingKey).length < 4 := by
        rw [hlenF]
        omega
      have c5 : ¬ (sendFrameBytes Role.Client fin opcode payload maskingKey).length <
          4 + serverExtra Role.Server + payload.length := by
        rw [hse, hlenF]
        omega
      unfold headerInfo
      rw [if_neg c1, c2, hE16, if_pos rfl, if_neg c3, if_neg c5, hse]
    unfold decodeStep
    rw [hHI]
    have hfin : frameFin (sendFrameBytes Role.Client fin opcode payload maskingKey) = fin := by
      unfold frameFin
      rw [hb0]
      cases fin <;> simp <;> omega
    have hrsv : frameRsv (sendFrameBytes Role.Client fin opcode payload maskingKey) = 0 := by
      unfold frameRsv
      rw [hb0, Nat.shiftRight_eq_div_pow]
      cases fin <;> simp <;> omega
    have hopc : frameOpcode (sendFrameBytes Role.Client fin opcode payload maskingKey)
        = opcode := by
      unfold frameOpcode
      rw [hb0]
      cases fin <;> simp <;> omega
    have hex : extractData Role.Server
        (sendFrameBytes Role.Client fin opcode payload maskingKey) 8 payload.length
        = payload := by
      rw [hF]
      rw [show (8 : Nat) =
        ((((if fin then 128 else 0) + opcode) % 256) ::
          [254, payload.length >>> 8 % 256, payload.length % 256]).length + 4
        from by simp]
      exact clientFrameExtract _ payload maskingKey hbytes
    have hdrop : (sendFrameBytes Role.Client fin opcode payload maskingKey).drop
        (8 + payload.length) = [] := by
      apply List.drop_eq_nil_of_le
      rw [hlenF]
    simp [hfin, hrsv, hopc, hex, hdrop]

theorem mod_split (m k j : Nat) (hj : j = k + 8) :
    m % 2 ^ j = m >>> k % 256 * 2 ^ k + m % 2 ^ k := by
  subst hj
  rw [Nat.shiftRight_eq_div_pow]
  have h1 : m / 2 ^ k % 256 = m % 2 ^ (k + 8) / 2 ^ k := by
    rw [Nat.div_mod_eq_mod_mul_div]
    congr 1
    rw [Nat.pow_add]
  have h2 : m % 2 ^ k = m % 2 ^ (k + 8) % 2 ^ k :=
    (Nat.mod_mod_of_dvd m (Nat.pow_dvd_pow 2 (by omega))).symm
  rw [h1, h2]
  exact (Nat.div_add_mod' (m % 2 ^ (k + 8)) (2 ^ k)).symm

set_option maxHeartbeats 1000000 in
theorem roundtrip_long (fin : Bool) (opcode : Nat) (payload maskingKey : List Nat)
    (hop : opcode < 16) (hbytes : ∀ x ∈ payload, x < 256)
    (h65536 : ¬ payload.length < 65536) (hlen : payload.length < 2 ^ 64) :
    (sendFrameBytes Role.Client fin opcode payload maskingKey).getD 1 0 / 128 % 2 = 1 ∧
    (sendFrameBytes Role.Client fin opcode payload maskingKey).length =
      frameHeaderLen payload.length + 4 + payload.length ∧
    (∀ i, i < payload.length →
      (sendFrameBytes Role.Client fin opcode payload maskingKey).getD
          (frameHeaderLen payload.length + 4 + i) 0 =
        (payload.getD i 0 ^^^
          (sendFrameBytes Role.Client fin opcode payload maskingKey).getD
            (frameHeaderLen payload.length + i % 4) 0) % 256) ∧
    (sendFrameBytes Role.Server fin opcode payload maskingKey).getD 1 0 / 128 % 2 = 0 ∧
    (sendFrameBytes Role.Server fin opcode payload maskingKey).drop
        (frameHeaderLen payload.length) = payload ∧
    decodeStep Role.Server (sendFrameBytes Role.Client fin opcode payload maskingKey) =
      some (⟨fin, 0, opcode, payload⟩, []) := by
  have h126 : ¬ payload.length < 126 := by omega
  have hHL : frameHeaderLen payload.length = 10 := by
    simp [frameHeaderLen, h126, h65536]
  have hF : sendFrameBytes Role.Client fin opcode payload maskingKey =
      ((((if fin then 128 else 0) + opcode) % 256) ::
        [255, payload.length >>> 56 % 256, payload.length >>> 48 % 256,
         payload.length >>> 40 % 256, payload.length >>> 32 % 256,
         payload.length >>> 24 % 256, payload.length >>> 16 % 256,
         payload.length >>> 8 % 256, payload.length % 256]) ++
        (((List.range 4).map fun j => maskingKey.getD j 0 % 256) ++
         ((List.range payload.length).map fun j =>
           (payload.getD j 0 ^^^ (maskingKey.getD (j % 4) 0 % 256)) % 256)) := by
    simp [sendFrameBytes, h126, h65536]
  have hFs : sendFrameBytes Role.Server fin opcode payload maskingKey =
      ((((if fin then 128 else 0) + opcode) % 256) ::
        [127, payload.length >>> 56 % 256, payload.length >>> 48 % 256,
         payload.length >>> 40 % 256, payload.length >>> 32 % 256,
         payload.length >>> 24 % 256, payload.length >>> 16 % 256,
         payload.length >>> 8 % 256, payload.length % 256]) ++ payload := by
    simp [sendFrameBytes, h126, h65536]
  have hb1 : (sendFrameBytes Role.Client fin opcode payload maskingKey).getD 1 0 = 255 := by
    rw [hF, List.getD_append _ _ _ _ (by simp)]
    simp
  have hb0 : (sendFrameBytes Role.Client fin opcode payload maskingKey).getD 0 0 =
      ((if fin then 128 else 0) + opcode) % 256 := by
    rw [hF, List.getD_append _ _ _ _ (by simp)]
    simp
  have hlenF : (sendFrameBytes Role.Client fin opcode payload maskingKey).length =
      14 + payload.length := by
    rw [hF]
    simp
    omega
  refine ⟨?_, ?_, ?_, ?_, ?_, ?_⟩
  · rw [hb1]
  · rw [hlenF, hHL]
  · intro i hi
    rw [hHL, hF]
    have e0 : 10 + 4 + i =
        ((((if fin then 128 else 0) + opcode) % 256) ::
          [255, payload.length >>> 56 % 256, payload.length >>> 48 % 256,
           payload.length >>> 40 % 256, payload.length >>> 32 % 256,
           payload.length >>> 24 % 256, payload.length >>> 16 % 256,
           payload.length >>> 8 % 256, payload.length % 256]).length +
        ((List.range 4).map fun j => maskingKey.getD j 0 % 256).length + i := by
      simp
    have e1 : 10 + i % 4 =
        ((((if fin then 128 else 0) + opcode) % 256) ::
          [255, payload.length >>> 56 % 256, payload.length >>> 48 % 256,
           payload.length >>> 40 % 256, payload.length >>> 32 % 256,
           payload.length >>> 24 % 256, payload.length >>> 16 % 256,
           payload.length >>> 8 % 256, payload.length % 256]).length + i % 4 := by
      simp
    rw [e0, getD_append_append_payload, e1,
      getD_append_append_key _ _ _ (by simp [Nat.mod_lt i (y := 4)]),
      getD_map_range hi, getD_map_range (Nat.mod_lt i (by omega))]
  · rw [hFs, List.getD_append _ _ _ _ (by simp)]
    simp
  · rw [hFs, hHL]
    rw [List.drop_left' (by simp)]
  · have hse : serverExtra Role.Server = 4 := rfl
    have hg : ∀ k : Nat, 2 ≤ k → k ≤ 9 →
        (sendFrameBytes Role.Client fin opcode payload maskingKey).getD k 0 =
        payload.length >>> ((9 - k) * 8) % 256 ∨ True := fun _ _ _ => Or.inr trivial
    have g2 : (sendFrameBytes Role.Client fin opcode payload maskingKey).getD 2 0 =
        payload.length >>> 56 % 256 := by
      rw [hF, List.getD_append _ _ _ _ (by simp)]
      simp
    have g3 : (sendFrameBytes Role.Client fin opcode payload maskingKey).getD 3 0 =
        payload.length >>> 48 % 256 := by
      rw [hF, List.getD_append _ _ _ _ (by simp)]
      simp
    have g4 : (sendFrameBytes Role.Client fin opcode payload maskingKey).getD 4 0 =
        payload.length >>> 40 % 256 := by
      rw [hF, List.getD_append _ _ _ _ (by simp)]
      simp
    have g5 : (sendFrameBytes Role.Client fin opcode payload maskingKey).getD 5 0 =
        payload.length >>> 32 % 256 := by
      rw [hF, List.getD_append _ _ _ _ (by simp)]
      simp
    have g6 : (sendFrameBytes Role.Client fin opcode payload maskingKey).getD 6 0 =
        payload.length >>> 24 % 256 := by
      rw [hF, List.getD_append _ _ _ _ (by simp)]
      simp
    have g7 : (sendFrameBytes Role.Client fin opcode payload maskingKey).getD 7 0 =
        payload.length >>> 16 % 256 := by
      rw [hF, List.getD_append _ _ _ _ (by simp)]
      simp
    have g8 : (sendFrameBytes Role.Client fin opcode payload maskingKey).getD 8 0 =
        payload.length >>> 8 % 256 := by
      rw [hF, List.getD_append _ _ _ _ (by simp)]
      simp
    have g9 : (sendFrameBytes Role.Client fin opcode payload maskingKey).getD 9 0 =
        payload.length % 256 := by
      rw [hF, List.getD_append _ _ _ _ (by simp)]
      simp
    have hE64 : extendedLength64 (sendFrameBytes Role.Client fin opcode payload maskingKey) =
        payload.length := by
      unfold extendedLength64
      rw [g2, g3, g4, g5, g6, g7, g8, g9]
      simp only [Nat.shiftLeft_eq]
      rw [show (256:Nat) = 2 ^ 8 from by norm_num]
      conv_rhs => rw [← Nat.mod_eq_of_lt hlen]
      rw [mod_split payload.length 56 64 (by norm_num),
        mod_split payload.length 48 56 (by norm_num),
        mod_split payload.length 40 48 (by norm_num),
        mod_split payload.length 32 40 (by norm_num),
        mod_split payload.length 24 32 (by norm_num),
        mod_split payload.length 16 24 (by norm_num),
        mod_split payload.length 8 16 (by norm_num)]
      ring
    have hHI : headerInfo Role.Server
        (sendFrameBytes Role.Client fin opcode payload maskingKey) =
        some (14, payload.length) := by
      have c1 : ¬ (sendFrameBytes Role.Client fin opcode payload maskingKey).length < 2 := by
        rw [hlenF]
        omega
      have c2a : ¬ (sendFrameBytes Role.Client fin opcode payload maskingKey).getD 1 0 % 128
          = 126 := by
        rw [hb1]
        omega
      have c2b : (sendFrameBytes Role.Client fin opcode payload maskingKey).getD 1 0 % 128
          = 127 := by
        rw [hb1]
      have c3 : ¬ (sendFrameBytes Role.Client fin opcode payload maskingKey).length < 10 := by
        rw [hlenF]
        omega
      have c5 : ¬ (sendFrameBytes Role.Client fin opcode payload maskingKey).length <
          10 + serverExtra Role.Server + payload.length := by
        rw [hse, hlenF]
        omega
      unfold headerInfo
      rw [if_neg c1, if_neg c2a, c2b, hE64, if_pos rfl, if_neg c3, if_neg c5, hse]
    unfold decodeStep
    rw [hHI]
    have hfin : frameFin (sendFrameBytes Role.Client fin opcode payload maskingKey) = fin := by
      unfold frameFin
      rw [hb0]
      cases fin <;> simp <;> omega
    have hrsv : frameRsv (sendFrameBytes Role.Client fin opcode payload maskingKey) = 0 := by
      unfold frameRsv
      rw [hb0, Nat.shiftRight_eq_div_pow]
      cases fin <;> simp <;> omega
    have hopc : frameOpcode (sendFrameBytes Role.Client fin opcode payload maskingKey)
        = opcode := by
      unfold frameOpcode
      rw [hb0]
      cases fin <;> simp <;> omega
    have hex : extractData Role.Server
        (sendFrameBytes Role.Client fin opcode payload maskingKey) 14 payload.length
        = payload := by
      rw [hF]
      rw [show (14 : Nat) =
        ((((if fin then 128 else 0) + opcode) % 256) ::
          [255, payload.length >>> 56 % 256, payload.length >>> 48 % 256,
           payload.length >>> 40 % 256, payload.length >>> 32 % 256,
           payload.length >>> 24 % 256, payload.length >>> 16 % 256,
           payload.length >>> 8 % 256, payload.length % 256]).length + 4
        from by simp]
      exact clientFrameExtract _ payload maskingKey hbytes
    have hdrop : (sendFrameBytes Role.Client fin opcode payload maskingKey).drop
        (14 + payload.length) = [] := by
      apply List.drop_eq_nil_of_le
      rw [hlenF]
    simp [hfin, hrsv, hopc, hex, hdrop]

/-- Claim C9: a frame encoded in Client role has the MASK bit of its
second octet set and consists of the header, a 4-byte masking key, and the
payload with byte i XOR-ed against key byte i mod 4 (the key bytes being
those carried by the frame itself); a frame encoded in Server role has the
MASK bit clear and carries the payload verbatim right after the header;
and decoding a Client-encoded frame with the Server-side unmasking of
ReceiveData/ReceiveFrame recovers fin, zero reserved bits, the opcode and
the original payload exactly, consuming the whole frame. -/
theorem mask_encode_decode_roundtrip (fin : Bool) (opcode : Nat)
    (payload maskingKey : List Nat) (hop : opcode < 16)
    (hlen : payload.length < 2 ^ 64) (hbytes : ∀ x ∈ payload, x < 256) :
    (sendFrameBytes Role.Client fin opcode payload maskingKey).getD 1 0 / 128 % 2 = 1 ∧
    (sendFrameBytes Role.Client fin opcode payload maskingKey).length =
      frameHeaderLen payload.length + 4 + payload.length ∧
    (∀ i, i < payload.length →
      (sendFrameBytes Role.Client fin opcode payload maskingKey).getD
          (frameHeaderLen payload.length + 4 + i) 0 =
        (payload.getD i 0 ^^^
          (sendFrameBytes Role.Client fin opcode payload maskingKey).getD
            (frameHeaderLen payload.length + i % 4) 0) % 256) ∧
    (sendFrameBytes Role.Server fin opcode payload maskingKey).getD 1 0 / 128 % 2 = 0 ∧
    (sendFrameBytes Role.Server fin opcode payload maskingKey).drop
        (frameHeaderLen payload.length) = payload ∧
    decodeStep Role.Server (sendFrameBytes Role.Client fin opcode payload maskingKey) =
      some (⟨fin, 0, opcode, payload⟩, []) := by
  by_cases h126 : payload.length < 126
  · exact roundtrip_short fin opcode payload maskingKey hop hbytes h126
  · by_cases h65536 : payload.length < 65536
    · exact roundtrip_medium fin opcode payload maskingKey hop hbytes h126 h65536
    · exact roundtrip_long fin opcode payload maskingKey hop hbytes h65536 hlen

/-- Witness for mask_encode_decode_roundtrip: a two-byte Ping payload and
a concrete masking key decode back to themselves. -/
theorem mask_encode_decode_roundtrip_witness :
    decodeStep Role.Server (sendFrameBytes Role.Client true 9 [72, 101] [7, 7, 7, 7]) =
      some (⟨true, 0, 9, [72, 101]⟩, []) :=
  (mask_encode_decode_roundtrip true 9 [72, 101] [7, 7, 7, 7] (by decide) (by decide)
    (by decide)).2.2.2.2.2
